import Mathlib

/-
Verification development for the database-migration-tool repository.

Shallow embedding of the core components:
  * internal/anonymizer/anonymizer.go  — field-name driven value anonymization,
  * internal/migrator (data migrator)  — per-table streaming copy with batched
    destination transactions, table-set resolution, and the all-tables driver,
  * internal/verifier/verifier.go      — per-table row-count reconciliation.

Modelling conventions:
  * Go `interface{}` values scanned from a row are the closed variant type
    `Value` (null, string, int64-style number, timestamp, byte slice); the
    engine never computes with numbers, so a number is carried as an `Int`.
  * `crypto/rand` draws are made explicit: every function that consumes
    randomness takes an extra `r : Nat`, and `randomInt max r` models
    `randomInt(max)` as `r % max` (with the Go guard `max <= 0 -> 0`).
  * Database effects are explicit state passing: the source cursor is a list
    of `RowOp` events (a successfully scanned row, a scan failure, or a row
    whose destination insert fails), the destination is a `CopySt` holding
    committed rows, the rows pending in the currently open transaction, and
    ghost counters instrumenting the `Commit`/`BeginTx` calls performed.
  * Strings are treated as their character lists (Go indexes bytes; every
    field name and pattern involved is ASCII, where the two coincide).
-/

/-- Dynamic runtime value of one column in a scanned row
(`values := make([]interface{}, len(columns))` in the Go source). -/
inductive Value where
  | null
  | str (s : String)
  | int (n : Int)
  | time (t : Nat)
  | bytes (bs : List Nat)
  deriving DecidableEq

/-- A row is the ordered sequence of its column values. -/
abbrev Row := List Value

/-! ## Anonymizer (internal/anonymizer/anonymizer.go) -/

/-- The placeholder email domains held by `Anonymizer` (`NewAnonymizer`). -/
def anonDomains : List String := ["example.com", "test.com", "sample.org"]

/-- `randomInt(max)` from the source, with the random draw `r` explicit:
Go returns 0 when `max <= 0`, else a uniform value in `[0, max)`. -/
def randomInt (max r : Nat) : Nat := if max = 0 then 0 else r % max

/-- Model of `strings.ToLower` (ASCII field names). -/
def toLowerStr (s : String) : String := String.mk (s.data.map Char.toLower)

/-- Model of `strings.Contains` on character lists. -/
def containsList (needle : List Char) : List Char → Bool
  | [] => needle.isEmpty
  | c :: rest => needle.isPrefixOf (c :: rest) || containsList needle rest

/-- `strings.Contains(str, substr)`. -/
def containsSub (str substr : String) : Bool := containsList substr.data str.data

/-- `containsAny` helper from the anonymizer source. -/
def containsAny (str : String) (substrings : List String) : Bool :=
  substrings.any (fun substr => containsSub str substr)

/-- Model of `strings.Split` on a single separator character. -/
def splitOnChar (sep : Char) : List Char → List (List Char)
  | [] => [[]]
  | c :: rest =>
    if c = sep then [] :: splitOnChar sep rest
    else
      match splitOnChar sep rest with
      | [] => [[c]]
      | h :: t => (c :: h) :: t

/-- Go `fmt.Sprintf` `%04d` zero padding (arguments here are `< 10000`). -/
def pad4 (n : Nat) : String :=
  let s := toString n
  String.mk (List.replicate (4 - s.length) '0') ++ s

/-- `AnonymizeEmail`: empty stays empty; a string not of the form `a@b`
becomes the fixed placeholder; else keep the first character of the
local part, mask the rest (capped at 5), and pick a placeholder domain. -/
def AnonymizeEmail (r : Nat) (email : String) : String :=
  if email = "" then ""
  else
    match splitOnChar '@' email.data with
    | [username, _] =>
      match username with
      | [] => "anonymous@example.com"
      | c :: rest =>
        String.mk (c :: List.replicate (min rest.length 5) '*') ++ "@" ++
          (anonDomains.getD (randomInt anonDomains.length r) "example.com")
    | _ => "anonymous@example.com"

/-- `AnonymizePhone`: strip non-digits; fewer than 10 digits gives the fixed
placeholder, else keep the first two digits and a random 4-digit suffix. -/
def AnonymizePhone (r : Nat) (phone : String) : String :=
  if phone = "" then ""
  else
    let digits := phone.data.filter (fun c => c.isDigit)
    if digits.length = 0 then "+1-555-0100"
    else if digits.length ≥ 10 then
      "+" ++ String.mk (digits.take 2) ++ "-555-" ++ pad4 (randomInt 10000 r)
    else "+1-555-0100"

/-- `AnonymizeName`: keep the first character of each whitespace-separated
token, append a fixed mask suffix, rejoin with single spaces. -/
def AnonymizeName (name : String) : String :=
  if name = "" then ""
  else
    let parts := (name.split (fun c => c.isWhitespace)).filter (fun p => p ≠ "")
    if parts.isEmpty then "Anonymous User"
    else
      let masked := parts.filterMap (fun part =>
        match part.data with
        | [] => none
        | c :: _ => some (String.mk [c] ++ "***"))
      String.intercalate " " masked

/-- Hash mixer standing in for the digest body of the external bcrypt
primitive; a function of the (constant) password and the salt draw only. -/
def strHash (s : String) (salt : Nat) : Nat :=
  s.data.foldl (fun h c => h * 31 + c.toNat) salt

/-- Model of `bcrypt.GenerateFromPassword` (golang.org/x/crypto/bcrypt,
external to this repository): a bcrypt-format digest determined by the
password argument, the cost and the random salt draw.  The property the
development relies on is visible in its signature: the digest depends on
nothing but these three arguments. -/
def bcryptGenerate (password : String) (cost salt : Nat) : String :=
  "$2a$" ++ toString cost ++ "$" ++ toString (strHash password salt)

/-- `AnonymizePassword`: hashes the constant `"changeme123"` at the default
cost; it takes no value argument at all, so no information about the
original password reaches the output. -/
def AnonymizePassword (r : Nat) : String := bcryptGenerate "changeme123" 10 r

/-- `AnonymizeSSN`: empty stays empty, else a masked fixed-format
placeholder with a random 4-digit suffix. -/
def AnonymizeSSN (r : Nat) (ssn : String) : String :=
  if ssn = "" then "" else "***-**-" ++ pad4 (randomInt 10000 r)

/-- `AnonymizeCreditCard`: strip non-digits; keep the last 4 digits when at
least 4 remain, else an all-zero placeholder. -/
def AnonymizeCreditCard (cc : String) : String :=
  if cc = "" then ""
  else
    let digits := cc.data.filter (fun c => c.isDigit)
    if digits.length ≥ 4 then
      "****-****-****-" ++ String.mk (digits.drop (digits.length - 4))
    else "****-****-****-0000"

/-- `AnonymizeAddress`: empty stays empty, else a synthetic address with a
random house number. -/
def AnonymizeAddress (r : Nat) (address : String) : String :=
  if address = "" then ""
  else toString (randomInt 9999 r + 1) ++ " Anonymous Street, Privacy City, XX 00000"

/-- `AnonymizeValue(fieldName, value)`: nil and non-string values pass
through unchanged; string values are dispatched by a top-to-bottom
first-match switch on case-insensitive substring patterns of the field
name. -/
def AnonymizeValue (fieldName : String) (value : Value) (r : Nat) : Value :=
  match value with
  | Value.str strValue =>
    let fieldLower := toLowerStr fieldName
    if containsAny fieldLower ["email", "mail"] then
      Value.str (AnonymizeEmail r strValue)
    else if containsAny fieldLower ["phone", "mobile", "tel"] then
      Value.str (AnonymizePhone r strValue)
    else if containsAny fieldLower ["password", "passwd", "pwd"] then
      Value.str (AnonymizePassword r)
    else if containsAny fieldLower ["name", "firstname", "lastname", "fullname"] then
      Value.str (AnonymizeName strValue)
    else if containsAny fieldLower ["ssn", "social"] then
      Value.str (AnonymizeSSN r strValue)
    else if containsAny fieldLower ["credit", "card", "cc"] then
      Value.str (AnonymizeCreditCard strValue)
    else if containsAny fieldLower ["address", "street", "addr"] then
      Value.str (AnonymizeAddress r strValue)
    else value
  | v => v

/-- The pattern list of the `k`-th case of the `AnonymizeValue` switch,
in source order (`[]` past the last case). -/
def patsOfCat : Nat → List String
  | 0 => ["email", "mail"]
  | 1 => ["phone", "mobile", "tel"]
  | 2 => ["password", "passwd", "pwd"]
  | 3 => ["name", "firstname", "lastname", "fullname"]
  | 4 => ["ssn", "social"]
  | 5 => ["credit", "card", "cc"]
  | 6 => ["address", "street", "addr"]
  | _ => []

/-- The transform of the `k`-th case of the `AnonymizeValue` switch
(identity past the last case). -/
def applyCat : Nat → Nat → String → String
  | 0, r, s => AnonymizeEmail r s
  | 1, r, s => AnonymizePhone r s
  | 2, r, _ => AnonymizePassword r
  | 3, _, s => AnonymizeName s
  | 4, r, s => AnonymizeSSN r s
  | 5, _, s => AnonymizeCreditCard s
  | 6, r, s => AnonymizeAddress r s
  | _, _, s => s

/-- The field name matches the `k`-th switch case's pattern set. -/
def matchesCat (fieldName : String) (k : Nat) : Bool :=
  containsAny (toLowerStr fieldName) (patsOfCat k)

/-! ## Data migrator (internal/migrator, data migration source) -/

/-- The migration configuration fields consumed by the data migrator
(`config.MigrationConfig`). -/
structure MigrationConfig where
  Tables : List String
  ExcludeTables : List String
  TruncateTables : Bool
  Anonymize : Bool
  BatchSize : Nat

/-- One event of the source row cursor inside `migrateTable`'s loop:
a row that scans and inserts fine, a `rows.Scan` failure, or a row whose
destination insert fails. -/
inductive RowOp where
  | ok (r : Row)
  | scanErr
  | insertErr (r : Row)

/-- Failure causes produced by `migrateTable` / `getTablesToMigrate`,
one per `result.Error = fmt.Errorf(...)` site. -/
inductive MigErr where
  | truncateFailed
  | columnsFailed
  | queryFailed
  | prepareFailed
  | beginFailed
  | scanFailed
  | insertFailed
  | commitFailed
  | iterFailed
  | catalogFailed
  deriving DecidableEq

/-- Destination-side state of one table copy: the loop counters of the Go
source (`rowCount`, `batchCount`), ghost counters instrumenting the
transaction calls (`commitCalls` counts every `tx.Commit()`, `dataCommits`
only those that carry at least one row, `beginCalls` every `BeginTx`), the
rows durably committed, and the rows pending in the open transaction. -/
structure CopySt where
  rowCount : Nat
  batchCount : Nat
  commitCalls : Nat
  dataCommits : Nat
  beginCalls : Nat
  committed : List Row
  pending : List Row

/-- Effect of `tx.Commit()` on the destination state: pending rows become
committed and the commit counters advance. -/
def commitTx (st : CopySt) : CopySt :=
  { st with
    committed := st.committed ++ st.pending
    pending := []
    commitCalls := st.commitCalls + 1
    dataCommits := st.dataCommits + (if st.pending.isEmpty then 0 else 1) }

/-- The per-row anonymization pass of `migrateTable`
(`values[i] = m.anonymizer.AnonymizeValue(col, values[i])`). -/
def procRow (anonymize : Bool) (cols : List String) (rnd : Nat) (row : Row) : Row :=
  if anonymize then List.zipWith (fun c v => AnonymizeValue c v rnd) cols row else row

/-- The `for rows.Next()` loop of `migrateTable`: scan each cursor event,
anonymize when configured, insert into the open transaction, and commit /
reopen every `batchSize` rows.  A scan or insert failure rolls back the
open transaction (pending rows are discarded) and stops with the cause; a
commit or begin failure stops with the cause. -/
def copyLoop (anonymize : Bool) (cols : List String) (batchSize rnd : Nat)
    (commitOk beginOk : Nat → Bool) :
    List RowOp → CopySt → CopySt × Option MigErr
  | [], st => (st, none)
  | RowOp.scanErr :: _, st => ({ st with pending := [] }, some MigErr.scanFailed)
  | RowOp.insertErr _ :: _, st => ({ st with pending := [] }, some MigErr.insertFailed)
  | RowOp.ok r :: rest, st =>
    let rr := procRow anonymize cols rnd r
    let st1 : CopySt :=
      { st with
        rowCount := st.rowCount + 1
        batchCount := st.batchCount + 1
        pending := st.pending ++ [rr] }
    if st1.batchCount ≥ batchSize then
      if commitOk st1.commitCalls then
        let st2 := { commitTx st1 with batchCount := 0 }
        if beginOk st2.beginCalls then
          copyLoop anonymize cols batchSize rnd commitOk beginOk rest
            { st2 with beginCalls := st2.beginCalls + 1 }
        else (st2, some MigErr.beginFailed)
      else (st1, some MigErr.commitFailed)
    else copyLoop anonymize cols batchSize rnd commitOk beginOk rest st1

/-- `MigrateResult` of the Go source. -/
structure MigrateResult where
  Table : String
  RowsMigrated : Nat
  Success : Bool
  Error : Option MigErr
  deriving DecidableEq

/-- Environment of one `migrateTable` call: outcomes of the surrounding
database operations (truncate, column introspection, source query,
statement preparation), the source cursor events, the trailing
`rows.Err()` outcome, the outcomes of the n-th commit / begin call, the
destination's initial contents, and the random source. -/
structure TableEnv where
  truncateOK : Bool
  columns : Option (List String)
  queryOK : Bool
  prepareOK : Bool
  rowOps : List RowOp
  iterErr : Bool
  commitOk : Nat → Bool
  beginOk : Nat → Bool
  initialRows : List Row
  rnd : Nat

/-- Destination state at the start of a copy. -/
def initSt (committed : List Row) : CopySt :=
  { rowCount := 0, batchCount := 0, commitCalls := 0, dataCommits := 0,
    beginCalls := 0, committed := committed, pending := [] }

/-- A failed `MigrateResult` (the Go struct keeps its zero-valued
`RowsMigrated` on every failure path). -/
def failRes (table : String) (e : MigErr) : MigrateResult :=
  { Table := table, RowsMigrated := 0, Success := false, Error := some e }

/-- `migrateTable`: truncate the destination when configured, introspect
columns, open the source cursor, prepare the insert, then run the batched
copy loop; afterwards commit the remaining partial batch and check
`rows.Err()`.  Returns the Go `MigrateResult` paired with the final
destination state. -/
def migrateTable (cfg : MigrationConfig) (env : TableEnv) (table : String) :
    MigrateResult × CopySt :=
  if cfg.TruncateTables && !env.truncateOK then
    (failRes table MigErr.truncateFailed, initSt env.initialRows)
  else
    let dest0 := initSt (if cfg.TruncateTables then [] else env.initialRows)
    match env.columns with
    | none => (failRes table MigErr.columnsFailed, dest0)
    | some cols =>
      if !env.queryOK then (failRes table MigErr.queryFailed, dest0)
      else if !env.prepareOK then (failRes table MigErr.prepareFailed, dest0)
      else if !env.beginOk 0 then (failRes table MigErr.beginFailed, dest0)
      else
        match copyLoop cfg.Anonymize cols cfg.BatchSize env.rnd
            env.commitOk env.beginOk env.rowOps { dest0 with beginCalls := 1 } with
        | (st, some e) => (failRes table e, st)
        | (st, none) =>
          if env.commitOk st.commitCalls then
            let st2 := commitTx st
            if env.iterErr then (failRes table MigErr.iterFailed, st2)
            else
              ({ Table := table, RowsMigrated := st2.rowCount,
                 Success := true, Error := none }, st2)
          else (failRes table MigErr.commitFailed, st)

/-- `getTablesToMigrate`: a non-empty configured table list is returned
verbatim; otherwise the source catalog is consulted (`none` models a
failed catalog query) and the exclude list is applied to it. -/
def getTablesToMigrate (cfg : MigrationConfig) (catalog : Option (List String)) :
    Except MigErr (List String) :=
  if 0 < cfg.Tables.length then Except.ok cfg.Tables
  else
    match catalog with
    | none => Except.error MigErr.catalogFailed
    | some ts => Except.ok (ts.filter (fun t => !cfg.ExcludeTables.contains t))

/-- `MigrateAll`: resolve the table set, then copy every table in order,
collecting one `MigrateResult` per table; a table's failure is recorded
and the loop continues with the next table. -/
def MigrateAll (cfg : MigrationConfig) (catalog : Option (List String))
    (envOf : String → TableEnv) : Except MigErr (List MigrateResult) :=
  match getTablesToMigrate cfg catalog with
  | Except.error e => Except.error e
  | Except.ok tables =>
    Except.ok (tables.map (fun t => (migrateTable cfg (envOf t) t).1))

/-! ## Verifier (internal/verifier/verifier.go) -/

/-- Failure causes of `verifyTable` (source-side or destination-side count
query failure). -/
inductive VerifyErr where
  | remoteCountFailed
  | localCountFailed
  deriving DecidableEq

/-- `VerificationResult` of the Go source. -/
structure VerificationResult where
  Table : String
  RemoteRows : Int
  LocalRows : Int
  Match : Bool
  RowDiff : Int
  Error : Option VerifyErr
  deriving DecidableEq

/-- Environment of one `verifyTable` call: the outcome of the `COUNT(*)`
query on each side (`none` models a query failure). -/
structure VerifyEnv where
  remoteCount : Option Int
  localCount : Option Int

/-- `verifyTable`: count rows on both sides; a failure on either side is
recorded as the table's failure cause, otherwise the difference and the
match flag are computed. -/
def verifyTable (env : VerifyEnv) (table : String) : VerificationResult :=
  match env.remoteCount with
  | none =>
    { Table := table, RemoteRows := 0, LocalRows := 0, Match := false,
      RowDiff := 0, Error := some VerifyErr.remoteCountFailed }
  | some rc =>
    match env.localCount with
    | none =>
      { Table := table, RemoteRows := rc, LocalRows := 0, Match := false,
        RowDiff := 0, Error := some VerifyErr.localCountFailed }
    | some lc =>
      { Table := table, RemoteRows := rc, LocalRows := lc,
        Match := (rc - lc == 0), RowDiff := rc - lc, Error := none }

/-! ## Concrete instances used by counterexamples and witnesses -/

/-- Configuration with batch size 2 and no transformation, for concrete
evaluations. -/
def cexCfg : MigrationConfig :=
  { Tables := [], ExcludeTables := [], TruncateTables := false,
    Anonymize := false, BatchSize := 2 }

/-- An all-succeeding environment whose cursor yields exactly two rows. -/
def cexEnv2 : TableEnv :=
  { truncateOK := true, columns := some ["c"], queryOK := true,
    prepareOK := true,
    rowOps := [RowOp.ok [Value.int 1], RowOp.ok [Value.int 2]],
    iterErr := false, commitOk := fun _ => true, beginOk := fun _ => true,
    initialRows := [], rnd := 0 }

/-- An environment yielding two good rows and then a scan failure. -/
def cexEnvScanErr : TableEnv :=
  { truncateOK := true, columns := some ["c"], queryOK := true,
    prepareOK := true,
    rowOps := [RowOp.ok [Value.int 1], RowOp.ok [Value.int 2],
               RowOp.ok [Value.int 3], RowOp.scanErr],
    iterErr := false, commitOk := fun _ => true, beginOk := fun _ => true,
    initialRows := [], rnd := 0 }

/-- Configuration with an explicit two-table list, for the run-level
witness. -/
def cexCfgTables : MigrationConfig :=
  { Tables := ["a", "b"], ExcludeTables := [], TruncateTables := false,
    Anonymize := false, BatchSize := 2 }

/-- Per-table environments where table "a" succeeds and table "b" fails
mid-stream with a scan error. -/
def cexEnvOf : String → TableEnv :=
  fun t => if t = "a" then cexEnv2 else cexEnvScanErr

/-- Configuration whose explicit table list also appears in its own
exclude list, for the discovery-bypass witness. -/
def cexCfgExplicit : MigrationConfig :=
  { Tables := ["users"], ExcludeTables := ["users"], TruncateTables := false,
    Anonymize := false, BatchSize := 1 }

/-! ## Theorems -/

/-- Helper: when the field name matches the pattern set of switch case `i`
and none of the earlier cases, `AnonymizeValue` applies exactly case `i`'s
transform to a string value — the switch is first-match-wins. -/
theorem anonymizeValue_first_match (name s : String) (r : Nat) (i : Nat)
    (hi : i < 7) (hm : matchesCat name i = true)
    (he : ∀ j, j < i → matchesCat name j = false) :
    AnonymizeValue name (Value.str s) r = Value.str (applyCat i r s) := by
  simp only [matchesCat] at hm
  interval_cases i
  · simp only [patsOfCat] at hm
    simp [AnonymizeValue, applyCat, hm]
  · have e0 := he 0 (by omega)
    simp only [matchesCat, patsOfCat] at e0 hm
    simp [AnonymizeValue, applyCat, hm, e0]
  · have e0 := he 0 (by omega); have e1 := he 1 (by omega)
    simp only [matchesCat, patsOfCat] at e0 e1 hm
    simp [AnonymizeValue, applyCat, hm, e0, e1]
  · have e0 := he 0 (by omega); have e1 := he 1 (by omega)
    have e2 := he 2 (by omega)
    simp only [matchesCat, patsOfCat] at e0 e1 e2 hm
    simp [AnonymizeValue, applyCat, hm, e0, e1, e2]
  · have e0 := he 0 (by omega); have e1 := he 1 (by omega)
    have e2 := he 2 (by omega); have e3 := he 3 (by omega)
    simp only [matchesCat, patsOfCat] at e0 e1 e2 e3 hm
    simp [AnonymizeValue, applyCat, hm, e0, e1, e2, e3]
  · have e0 := he 0 (by omega); have e1 := he 1 (by omega)
    have e2 := he 2 (by omega); have e3 := he 3 (by omega)
    have e4 := he 4 (by omega)
    simp only [matchesCat, patsOfCat] at e0 e1 e2 e3 e4 hm
    simp [AnonymizeValue, applyCat, hm, e0, e1, e2, e3, e4]
  · have e0 := he 0 (by omega); have e1 := he 1 (by omega)
    have e2 := he 2 (by omega); have e3 := he 3 (by omega)
    have e4 := he 4 (by omega); have e5 := he 5 (by omega)
    simp only [matchesCat, patsOfCat] at e0 e1 e2 e3 e4 e5 hm
    simp [AnonymizeValue, applyCat, hm, e0, e1, e2, e3, e4, e5]

/-- C4: for every field name and every non-string value (null, number,
timestamp, byte array), `AnonymizeValue` returns the value unchanged,
regardless of whether the field name matches an anonymization pattern. -/
theorem anonymizeValue_nonstring_passthrough (fieldName : String) (r : Nat) :
    AnonymizeValue fieldName Value.null r = Value.null ∧
    (∀ n : Int, AnonymizeValue fieldName (Value.int n) r = Value.int n) ∧
    (∀ t : Nat, AnonymizeValue fieldName (Value.time t) r = Value.time t) ∧
    (∀ bs : List Nat, AnonymizeValue fieldName (Value.bytes bs) r = Value.bytes bs) :=
  ⟨rfl, fun _ => rfl, fun _ => rfl, fun _ => rfl⟩

/-- C7: anonymization rules are evaluated top-to-bottom with
first-match-wins: if a field name matches switch case `i`'s patterns and no
earlier case's patterns, the value receives exactly case `i`'s transform —
so a field matching both an earlier and a later pattern receives only the
earlier rule's transform.  The witness instantiates this at the field name
"email_address", which receives the email transform (case 0) and never the
address transform. -/
theorem anonymizeValue_rule_priority (name s : String) (r : Nat) (i : Nat)
    (hi : i < 7) (hm : matchesCat name i = true)
    (he : ∀ j, j < i → matchesCat name j = false) :
    AnonymizeValue name (Value.str s) r = Value.str (applyCat i r s) :=
  anonymizeValue_first_match name s r i hi hm he

/-- Witness for C7: "email_address" matches the email patterns (case 0),
so its value is transformed by `AnonymizeEmail` — not by the address rule. -/
theorem anonymizeValue_rule_priority_witness :
    matchesCat "email_address" 6 = true ∧
    AnonymizeValue "email_address" (Value.str "john@x.com") 0 =
      Value.str (applyCat 0 0 "john@x.com") :=
  ⟨by decide,
   anonymizeValue_rule_priority "email_address" "john@x.com" 0 0 (by omega)
     (by decide) (fun j hj => absurd hj (Nat.not_lt_zero j))⟩

/-- C8: a field name matching none of the seven pattern sets passes every
value through unchanged, string or not. -/
theorem anonymizeValue_no_match_passthrough (fieldName : String) (v : Value)
    (r : Nat) (h : ∀ i : Fin 7, matchesCat fieldName i.val = false) :
    AnonymizeValue fieldName v r = v := by
  have h0 := h ⟨0, by omega⟩; have h1 := h ⟨1, by omega⟩
  have h2 := h ⟨2, by omega⟩; have h3 := h ⟨3, by omega⟩
  have h4 := h ⟨4, by omega⟩; have h5 := h ⟨5, by omega⟩
  have h6 := h ⟨6, by omega⟩
  simp only [matchesCat, patsOfCat] at h0 h1 h2 h3 h4 h5 h6
  cases v <;> simp [AnonymizeValue, h0, h1, h2, h3, h4, h5, h6]

/-- Witness for C8: the field name "id" matches no pattern, so a string
value passes through unchanged. -/
theorem anonymizeValue_no_match_passthrough_witness :
    AnonymizeValue "id" (Value.str "hello") 0 = Value.str "hello" :=
  anonymizeValue_no_match_passthrough "id" (Value.str "hello") 0 (by decide)

/-- C9 counterexample: the field name "email_password" matches a password
pattern, yet the output depends on the input string — the email rule is
matched first and reads the value.  The claim as stated (every field name
matching a password pattern gets an input-independent output) is false. -/
theorem anonymizeValue_password_field_counterexample :
    containsAny (toLowerStr "email_password") ["password", "passwd", "pwd"] = true ∧
    AnonymizeValue "email_password" (Value.str "a@b.c") 0 ≠
      AnonymizeValue "email_password" (Value.str "xy@b.c") 0 := by
  decide

/-- C9 (amended): for every field name matching a password pattern whose
earlier switch cases (email/mail and phone/mobile/tel) do not match, the
output is `AnonymizePassword r` — a computation that never reads the input
value — so the output is identical for any two input strings. -/
theorem anonymizeValue_password_ignores_input (name v1 v2 : String) (r : Nat)
    (hpwd : containsAny (toLowerStr name) ["password", "passwd", "pwd"] = true)
    (hmail : containsAny (toLowerStr name) ["email", "mail"] = false)
    (htel : containsAny (toLowerStr name) ["phone", "mobile", "tel"] = false) :
    AnonymizeValue name (Value.str v1) r = Value.str (AnonymizePassword r) ∧
    AnonymizeValue name (Value.str v1) r = AnonymizeValue name (Value.str v2) r := by
  constructor <;> simp [AnonymizeValue, hpwd, hmail, htel]

/-- Witness for C9 (amended): the field "password" maps two different
secrets to the same fixed-hash output. -/
theorem anonymizeValue_password_ignores_input_witness :
    AnonymizeValue "password" (Value.str "hunter2") 0 =
      Value.str (AnonymizePassword 0) ∧
    AnonymizeValue "password" (Value.str "hunter2") 0 =
      AnonymizeValue "password" (Value.str "letmein") 0 :=
  anonymizeValue_password_ignores_input "password" "hunter2" "letmein" 0
    (by decide) (by decide) (by decide)

/-- C10: when the rule selected for a field (its first-matching switch
case, per the first-match-wins policy) is any non-password category, the
empty string value is returned unchanged — every non-password transform
maps "" to "". -/
theorem anonymizeValue_empty_string_preserved (name : String) (r : Nat)
    (h : ∃ i : Fin 7, i.val ≠ 2 ∧ matchesCat name i.val = true ∧
      ∀ j : Fin 7, j < i → matchesCat name j.val = false) :
    AnonymizeValue name (Value.str "") r = Value.str "" := by
  obtain ⟨i, hne, hm, he⟩ := h
  have step := anonymizeValue_first_match name "" r i.val i.isLt hm
    (fun j hj => he ⟨j, by omega⟩ (by simpa [Fin.lt_def] using hj))
  rw [step]
  fin_cases i <;>
    simp_all [applyCat, AnonymizeEmail, AnonymizePhone, AnonymizeName,
      AnonymizeSSN, AnonymizeCreditCard, AnonymizeAddress]

/-- Witness for C10: the field "ssn" is assigned the SSN rule (case 4, no
earlier case matches) and the empty string passes through unchanged. -/
theorem anonymizeValue_empty_string_preserved_witness :
    AnonymizeValue "ssn" (Value.str "") 0 = Value.str "" :=
  anonymizeValue_empty_string_preserved "ssn" 0
    ⟨⟨4, by omega⟩, by decide, by decide, by decide⟩

/-- Helper: the copy loop over a concatenated event list runs the first
part, and continues with the second part exactly when the first part
finished without an error. -/
theorem copyLoop_append (anonymize : Bool) (cols : List String) (B rnd : Nat)
    (commitOk beginOk : Nat → Bool) (l1 l2 : List RowOp) :
    ∀ st : CopySt,
    copyLoop anonymize cols B rnd commitOk beginOk (l1 ++ l2) st =
      match copyLoop anonymize cols B rnd commitOk beginOk l1 st with
      | (st1, none) => copyLoop anonymize cols B rnd commitOk beginOk l2 st1
      | (st1, some e) => (st1, some e) := by
  induction l1 with
  | nil => intro st; simp [copyLoop]
  | cons op l1 ih =>
    intro st
    cases op with
    | scanErr => simp [copyLoop]
    | insertErr r => simp [copyLoop]
    | ok r =>
      simp only [List.cons_append, copyLoop]
      split_ifs with h1 h2 h3
      · exact ih _
      · rfl
      · rfl
      · exact ih _

/-- Helper: taking or dropping one full block of size `B` past `B * k`
elements peels off a prefix of length exactly `B`. -/
theorem take_drop_block {α : Type _} (P L : List α) (B k : Nat) (hP : P.length = B) :
    List.take (B * k + B) (P ++ L) = P ++ List.take (B * k) L ∧
    List.drop (B * k + B) (P ++ L) = List.drop (B * k) L := by
  have hidx : B * k + B = P.length + B * k := by omega
  rw [hidx]
  exact ⟨List.take_append (B * k), List.drop_append (B * k)⟩

/-- Helper: full characterization of the copy loop on an error-free cursor
when every commit and begin succeeds.  Starting from a state whose open
transaction holds `batchCount < B` rows, processing `n` rows performs
`(batchCount + n) / B` batch commits, leaves `(batchCount + n) % B` rows
pending, and commits exactly the first `B * ((batchCount + n) / B)` of the
queued (possibly anonymized) rows, in order. -/
theorem copyLoop_ok_run (anonymize : Bool) (cols : List String) (B rnd : Nat)
    (hB : 0 < B) (rows : List Row) :
    ∀ st : CopySt, st.batchCount < B → st.batchCount = st.pending.length →
    copyLoop anonymize cols B rnd (fun _ => true) (fun _ => true)
        (rows.map RowOp.ok) st =
      ({ rowCount := st.rowCount + rows.length,
         batchCount := (st.batchCount + rows.length) % B,
         commitCalls := st.commitCalls + (st.batchCount + rows.length) / B,
         dataCommits := st.dataCommits + (st.batchCount + rows.length) / B,
         beginCalls := st.beginCalls + (st.batchCount + rows.length) / B,
         committed := st.committed ++
           (st.pending ++ rows.map (procRow anonymize cols rnd)).take
             (B * ((st.batchCount + rows.length) / B)),
         pending := (st.pending ++ rows.map (procRow anonymize cols rnd)).drop
           (B * ((st.batchCount + rows.length) / B)) }, none) := by
  induction rows with
  | nil =>
    intro st h1 h2
    simp [copyLoop, Nat.mod_eq_of_lt h1, Nat.div_eq_of_lt h1]
  | cons r rows ih =>
    intro st h1 h2
    simp only [List.map_cons, copyLoop]
    by_cases hc : st.batchCount + 1 ≥ B
    · have hcB : st.batchCount + 1 = B := Nat.le_antisymm h1 hc
      rw [if_pos hc]
      simp only [commitTx, if_true]
      rw [ih _ (by simpa using hB) (by simp)]
      simp only [Nat.zero_add, List.nil_append, List.length_cons]
      have hlenP : (st.pending ++ [procRow anonymize cols rnd r]).length = B := by
        simp [← h2]; omega
      have hsum : st.batchCount + (rows.length + 1) = rows.length + B := by omega
      rw [hsum, Nat.add_div_right _ hB, Nat.add_mod_right, Nat.mul_add, Nat.mul_one]
      rw [List.append_cons st.pending (procRow anonymize cols rnd r)
        (List.map (procRow anonymize cols rnd) rows)]
      rw [(take_drop_block _ _ B (rows.length / B) hlenP).1,
        (take_drop_block _ _ B (rows.length / B) hlenP).2]
      simp only [Prod.mk.injEq, CopySt.mk.injEq]
      repeat' apply And.intro
      all_goals first
        | trivial
        | omega
        | (simp [List.append_assoc]; try omega)
    · rw [if_neg hc]
      rw [ih _ (by dsimp only; omega) (by dsimp only; simp [← h2])]
      have harr : st.batchCount + 1 + rows.length = st.batchCount + (rows.length + 1) := by
        omega
      simp only [List.length_cons, harr, Prod.mk.injEq, CopySt.mk.injEq]
      repeat' apply And.intro
      all_goals first
        | trivial
        | omega
        | (rw [List.append_cons st.pending (procRow anonymize cols rnd r)
            (List.map (procRow anonymize cols rnd) rows)])

/-- Helper: ceiling division, written through quotient and remainder:
`N / B` plus one extra when the remainder is non-zero equals
`(N + B - 1) / B`. -/
theorem ceil_div_split (N B : Nat) (hB : 0 < B) :
    N / B + (if N % B = 0 then 0 else 1) = (N + B - 1) / B := by
  have hdm := Nat.div_add_mod N B
  have hlt : N % B < B := Nat.mod_lt N hB
  by_cases h : N % B = 0
  · have h1 : N + B - 1 = B * (N / B) + (B - 1) := by omega
    rw [if_pos h, h1, Nat.mul_add_div hB,
      Nat.div_eq_of_lt (show B - 1 < B by omega)]
  · have hmul : B * (N / B + 1) = B * (N / B) + B := by ring
    have h1 : N + B - 1 = B * (N / B + 1) + (N % B - 1) := by omega
    rw [if_neg h, h1, Nat.mul_add_div hB,
      Nat.div_eq_of_lt (show N % B - 1 < B by omega)]

/-- C1 (amended): a copy of `N` error-free source rows with batch size
`B > 0` in an environment where every database call succeeds completes
with `Success = true` and `RowsMigrated = N`; the destination sees
`N / B + 1` commit calls in total — the `N / B` in-loop batch commits plus
the unconditional final commit — of which exactly `ceil(N / B) =
(N + B - 1) / B` carry rows.  (The claim's count `ceil(N / B)` of all
commits performed holds exactly when `B` does not divide `N`; when `B`
divides `N`, including `N = 0`, the final commit closes an empty
transaction and the call count exceeds `ceil(N / B)` by one — see the
counterexample.) -/
theorem migrateTable_success_counts
    (cfg : MigrationConfig) (env : TableEnv) (table : String)
    (cols : List String) (rows : List Row)
    (hB : 0 < cfg.BatchSize)
    (ht : env.truncateOK = true) (hcols : env.columns = some cols)
    (hq : env.queryOK = true) (hp : env.prepareOK = true)
    (hco : env.commitOk = fun _ => true) (hbo : env.beginOk = fun _ => true)
    (hie : env.iterErr = false)
    (hops : env.rowOps = rows.map RowOp.ok) :
    (migrateTable cfg env table).1.Success = true ∧
    (migrateTable cfg env table).1.RowsMigrated = rows.length ∧
    (migrateTable cfg env table).2.commitCalls = rows.length / cfg.BatchSize + 1 ∧
    (migrateTable cfg env table).2.dataCommits =
      (rows.length + cfg.BatchSize - 1) / cfg.BatchSize := by
  have hloop := copyLoop_ok_run cfg.Anonymize cols cfg.BatchSize env.rnd hB rows
    { initSt (if cfg.TruncateTables then [] else env.initialRows) with beginCalls := 1 }
    (by simp [initSt]; omega) (by simp [initSt])
  simp only [migrateTable, ht, hcols, hq, hp, hco, hbo, hie, hops, Bool.not_true,
    Bool.and_false, Bool.false_eq_true, if_false]
  rw [hloop]
  have hproc : (rows.map (procRow cfg.Anonymize cols env.rnd)).length = rows.length :=
    List.length_map rows _
  have hmle : rows.length / cfg.BatchSize * cfg.BatchSize ≤ rows.length :=
    Nat.div_mul_le_self rows.length cfg.BatchSize
  have hdm := Nat.div_add_mod rows.length cfg.BatchSize
  have hemp : (List.drop (cfg.BatchSize * (rows.length / cfg.BatchSize))
      (rows.map (procRow cfg.Anonymize cols env.rnd))).isEmpty =
      (if rows.length % cfg.BatchSize = 0 then true else false) := by
    by_cases hz : rows.length % cfg.BatchSize = 0
    · rw [if_pos hz]
      simp only [List.isEmpty_eq_true, List.drop_eq_nil_iff, hproc]
      omega
    · rw [if_neg hz]
      simp only [List.isEmpty_eq_false, ne_eq, List.drop_eq_nil_iff, hproc]
      omega
  simp only [commitTx, initSt]
  simp only [Nat.zero_add, List.nil_append]
  refine ⟨rfl, by simp, by simp, ?_⟩
  simp only [hemp]
  rw [← ceil_div_split rows.length cfg.BatchSize hB]
  by_cases hz : rows.length % cfg.BatchSize = 0
  · simp [hz]
  · simp [hz]

/-- Witness for C1 (amended): two rows at batch size 2 migrate
successfully with 2 commit calls, of which 1 carries rows. -/
theorem migrateTable_success_counts_witness :
    (migrateTable cexCfg cexEnv2 "orders").1.Success = true ∧
    (migrateTable cexCfg cexEnv2 "orders").1.RowsMigrated = 2 ∧
    (migrateTable cexCfg cexEnv2 "orders").2.commitCalls = 2 ∧
    (migrateTable cexCfg cexEnv2 "orders").2.dataCommits = 1 :=
  migrateTable_success_counts cexCfg cexEnv2 "orders" ["c"]
    [[Value.int 1], [Value.int 2]] (by decide) rfl rfl rfl rfl rfl rfl rfl rfl

/-- C1 counterexample: a successful copy of `N = 2` source rows at batch
size `B = 2` performs 2 destination commit calls, not
`ceil(N / B) = (2 + 2 - 1) / 2 = 1`: after the in-loop batch commit the
code opens a fresh transaction and unconditionally commits it when the
cursor is exhausted, so the commit count is `N / B + 1` whenever `B`
divides `N`. -/
theorem migrateTable_commit_count_counterexample :
    (migrateTable cexCfg cexEnv2 "orders").1.Success = true ∧
    (migrateTable cexCfg cexEnv2 "orders").1.RowsMigrated = 2 ∧
    (migrateTable cexCfg cexEnv2 "orders").2.commitCalls ≠ (2 + 2 - 1) / 2 := by
  decide

/-- C2: when the cursor yields some error-free rows and then a scan error
or an insert error (with every transaction call succeeding), the table
copy aborts with `Success = false` and the corresponding failure cause,
the open transaction is rolled back (no pending rows survive), and the
destination keeps exactly the rows of the previously committed full
batches — the first `B * floor(goodRows / B)` processed rows. -/
theorem migrateTable_midstream_error_isolation
    (cfg : MigrationConfig) (env : TableEnv) (table : String)
    (cols : List String) (good : List Row) (bad : RowOp) (rest : List RowOp)
    (hB : 0 < cfg.BatchSize)
    (ht : env.truncateOK = true) (hcols : env.columns = some cols)
    (hq : env.queryOK = true) (hp : env.prepareOK = true)
    (hco : env.commitOk = fun _ => true) (hbo : env.beginOk = fun _ => true)
    (hops : env.rowOps = good.map RowOp.ok ++ bad :: rest)
    (hbad : bad = RowOp.scanErr ∨ ∃ rr, bad = RowOp.insertErr rr) :
    (migrateTable cfg env table).1.Success = false ∧
    (bad = RowOp.scanErr →
      (migrateTable cfg env table).1.Error = some MigErr.scanFailed) ∧
    ((∃ rr, bad = RowOp.insertErr rr) →
      (migrateTable cfg env table).1.Error = some MigErr.insertFailed) ∧
    (migrateTable cfg env table).2.pending = [] ∧
    (migrateTable cfg env table).2.committed =
      (if cfg.TruncateTables then [] else env.initialRows) ++
        (good.map (procRow cfg.Anonymize cols env.rnd)).take
          (cfg.BatchSize * (good.length / cfg.BatchSize)) := by
  have hloop := copyLoop_ok_run cfg.Anonymize cols cfg.BatchSize env.rnd hB good
    { initSt (if cfg.TruncateTables then [] else env.initialRows) with beginCalls := 1 }
    (by simp [initSt]; omega) (by simp [initSt])
  simp only [migrateTable, ht, hcols, hq, hp, hco, hbo, hops, Bool.not_true,
    Bool.and_false, Bool.false_eq_true, if_false]
  rw [copyLoop_append]
  rw [hloop]
  rcases hbad with hb | ⟨rr, hb⟩ <;> subst hb <;>
    simp [copyLoop, failRes, initSt]

/-- Witness for C2: three rows at batch size 2 followed by a scan error
leave exactly the one full committed batch (rows 1 and 2) in the
destination, no pending rows, and a `scanFailed` cause. -/
theorem migrateTable_midstream_error_isolation_witness :
    (migrateTable cexCfg cexEnvScanErr "users").1.Success = false ∧
    (migrateTable cexCfg cexEnvScanErr "users").1.Error = some MigErr.scanFailed ∧
    (migrateTable cexCfg cexEnvScanErr "users").2.pending = [] ∧
    (migrateTable cexCfg cexEnvScanErr "users").2.committed =
      [[Value.int 1], [Value.int 2]] := by
  have h := migrateTable_midstream_error_isolation cexCfg cexEnvScanErr "users" ["c"]
    [[Value.int 1], [Value.int 2], [Value.int 3]] RowOp.scanErr []
    (by decide) rfl rfl rfl rfl rfl rfl rfl (Or.inl rfl)
  exact ⟨h.1, h.2.1 rfl, h.2.2.2.1, h.2.2.2.2.trans (by decide)⟩

/-- C3: whenever table-set resolution yields a list of tables, `MigrateAll`
returns exactly one outcome per attempted table, in processing order, and
each table's outcome is computed from that table's own environment alone —
so a failure while copying one table never prevents the remaining tables
from being attempted, and an earlier table's outcome is unchanged by later
failures. -/
theorem migrateAll_partial_failure_isolation
    (cfg : MigrationConfig) (catalog : Option (List String))
    (envOf : String → TableEnv) (tables : List String)
    (h : getTablesToMigrate cfg catalog = Except.ok tables) :
    MigrateAll cfg catalog envOf =
      Except.ok (tables.map (fun t => (migrateTable cfg (envOf t) t).1)) ∧
    (tables.map (fun t => (migrateTable cfg (envOf t) t).1)).length = tables.length := by
  refine ⟨?_, by simp⟩
  simp [MigrateAll, h]

/-- Witness for C3: a run over tables "a" (succeeding) and "b" (failing
mid-stream) yields exactly the two per-table outcomes in order. -/
theorem migrateAll_partial_failure_isolation_witness :
    MigrateAll cexCfgTables none cexEnvOf =
      Except.ok (["a", "b"].map (fun t => (migrateTable cexCfgTables (cexEnvOf t) t).1)) ∧
    (["a", "b"].map (fun t => (migrateTable cexCfgTables (cexEnvOf t) t).1)).length = 2 :=
  migrateAll_partial_failure_isolation cexCfgTables none cexEnvOf ["a", "b"] rfl

/-- C5: when both count queries succeed, `verifyTable` reports
`RowDiff = remote - local` and `Match` holds exactly when that difference
is zero. -/
theorem verifyTable_difference_and_match
    (env : VerifyEnv) (table : String) (rc lc : Int)
    (hr : env.remoteCount = some rc) (hl : env.localCount = some lc) :
    (verifyTable env table).RowDiff = rc - lc ∧
    ((verifyTable env table).Match = true ↔ rc - lc = 0) := by
  simp [verifyTable, hr, hl]

/-- Witness for C5: counts 5 and 3 give difference 2 and no match. -/
theorem verifyTable_difference_and_match_witness :
    (verifyTable { remoteCount := some 5, localCount := some 3 } "users").RowDiff = 5 - 3 ∧
    ((verifyTable { remoteCount := some 5, localCount := some 3 } "users").Match = true ↔
      (5 : Int) - 3 = 0) :=
  verifyTable_difference_and_match { remoteCount := some 5, localCount := some 3 }
    "users" 5 3 rfl rfl

/-- C6: a non-empty explicit table list is returned verbatim by
`getTablesToMigrate`, for every catalog state (including an unavailable
catalog) and every exclude list — discovery is not performed and the
exclude list is not applied. -/
theorem getTables_explicit_list_verbatim
    (cfg : MigrationConfig) (catalog : Option (List String))
    (h : cfg.Tables ≠ []) :
    getTablesToMigrate cfg catalog = Except.ok cfg.Tables := by
  have hlen : 0 < cfg.Tables.length := List.length_pos.mpr h
  simp [getTablesToMigrate, hlen]

/-- Witness for C6: a configuration listing "users" — with "users" also in
its own exclude list and no catalog available — still migrates exactly
["users"]. -/
theorem getTables_explicit_list_verbatim_witness :
    getTablesToMigrate cexCfgExplicit none = Except.ok ["users"] :=
  getTables_explicit_list_verbatim cexCfgExplicit none (by decide)
